import Mathlib

/-!
Shallow embedding of the Workspace_Cleanup archive categorization engine
(src/File_Organizer.py and src/unnamed/part_000, the older organizer), with
theorems settling the frozen claims about it.

Filenames and directory entries are modelled as `String`s; byte sizes as
`Nat`; the mutable `self.stats` dictionary as an explicit `Stats` record
threaded through every operation that the Python methods could touch.
-/

namespace WorkspaceCleanup

/-- Lower-case a character the way CPython's `str.lower` does on the ASCII
range (all names appearing in the program are ASCII). -/
def lowerChar (c : Char) : Char :=
  if 'A' ≤ c ∧ c ≤ 'Z' then Char.ofNat (c.toNat + 32) else c

/-- Model of Python `s.lower()` (ASCII). -/
def lowerStr (s : String) : String :=
  String.mk (s.data.map lowerChar)

/-- `isPrefixL n h` : the char list `n` is an initial segment of `h`. -/
def isPrefixL : List Char → List Char → Bool
  | [], _ => true
  | _ :: _, [] => false
  | a :: as, b :: bs => a == b && isPrefixL as bs

/-- Helper for `containsSub` : does `needle` occur in the char list? -/
def containsSubL (needle : List Char) : List Char → Bool
  | [] => isPrefixL needle []
  | hd :: tl => isPrefixL needle (hd :: tl) || containsSubL needle tl

/-- Model of Python `sub in s` (substring containment). -/
def containsSub (s sub : String) : Bool :=
  containsSubL sub.data s.data

/-- The extension part of `os.path.splitext(name)` applied to the lower-cased
name: everything from the last dot on, where the leading dots of the name do
not count as extension separators (`splitext(".ds_store")` has no extension). -/
def lastDotSuffix : List Char → Option (List Char)
  | [] => none
  | '.' :: rest =>
    match lastDotSuffix rest with
    | some e => some e
    | none => some ('.' :: rest)
  | _ :: rest => lastDotSuffix rest

/-- Model of `os.path.splitext(file_name.lower())[1]` as used by the repair
sweeps and `move_to_category`. -/
def file_ext (name : String) : String :=
  let cs := (lowerStr name).data
  let rest := cs.dropWhile (· == '.')
  match lastDotSuffix rest with
  | some e => String.mk e
  | none => ""

/-! ## The System-Entry Filter (is_system_file) and the forward sweep of
src/unnamed/part_000 (`FileOrganizer.organize_folder`). -/

/-- The `system_files` denylist of `FileOrganizer.is_system_file`
(identical in src/File_Organizer.py lines 205-212 and src/unnamed/part_000
lines 138-145). -/
def system_files : List String :=
  ["desktop.ini", "recycle bin", "trash", "$recycle.bin", ".ds_store", "thumbs.db"]

/-- One directory entry of a source folder as the sweep sees it.
`size` is the byte size `os.path.getsize` reports; `fid` is an abstract
content identity used to observe overwrites; `locked` is the number of
initial `shutil.move` attempts that raise `PermissionError` (the
locked/in-use oracle); `statError` records that the `os.path.isdir` call of
`is_system_file` raises (permission/stat error oracle). -/
structure Entry where
  name : String
  isDir : Bool
  size : Nat
  fid : Nat
  locked : Nat
  statError : Bool
deriving Repr, DecidableEq

/-- `FileOrganizer.is_system_file` (src/File_Organizer.py lines 198-225,
src/unnamed/part_000 lines 131-158): denylist membership on the lower-cased
basename, then the recycle-bin directory check; any exception inside the
body (modelled by `statError` raised at the `os.path.isdir` call) is caught
and the function returns `False`. -/
def is_system_file (e : Entry) : Bool :=
  let file_lower := lowerStr e.name
  if system_files.contains file_lower then true
  else if e.statError then false
  else if e.isDir &&
      (containsSub file_lower "$recycle.bin" || containsSub file_lower "recycle bin") then true
  else false

/-- The per-entry filter of `organize_folder` (src/unnamed/part_000 lines
215-218): keep the item when it is not named `Archive`, not a system file,
and its lower-cased name does not contain the substring `archive`. -/
def eligible (e : Entry) : Bool :=
  e.name != "Archive" && !(is_system_file e) && !(containsSub (lowerStr e.name) "archive")

/-- The `self.stats` dictionary. -/
structure Stats where
  files_moved : Nat
  space_cleared : Nat
  errors : Nat
deriving Repr, DecidableEq

/-- A file at a destination, with its content identity. -/
structure DFile where
  name : String
  fid : Nat
  locked : Bool
deriving Repr, DecidableEq

/-- A dated subfolder of the `Archive` directory with its direct files. -/
structure Dated where
  dname : String
  dfiles : List DFile
deriving Repr, DecidableEq

/-- One record per processed eligible entry: the destination path computed
for it (as path components below the source folder), the number of
`shutil.move` attempts made, and whether the move succeeded. -/
structure MoveRec where
  rname : String
  dest : List String
  attempts : Nat
  moved : Bool
deriving Repr, DecidableEq

/-- State of one source folder during a forward sweep: its directory
listing, whether the `Archive` root exists, the dated subfolders of the
`Archive` root with their direct files, the statistics, the number of
one-second `time.sleep(1)` calls performed, and the move log. -/
structure OrgState where
  entries : List Entry
  hasArchive : Bool
  dated : List Dated
  stats : Stats
  sleeps : Nat
  log : List MoveRec
deriving Repr, DecidableEq

/-- `os.makedirs(archive_folder)` guarded by `os.path.exists` (part_000
lines 189-192). -/
def ensureArchive (st : OrgState) : OrgState :=
  if st.hasArchive then st else { st with hasArchive := true }

/-- `os.makedirs(dated_subfolder, exist_ok=True)` (part_000 line 222). -/
def ensureDated (ts : String) (st : OrgState) : OrgState :=
  if st.dated.any (fun d => d.dname == ts) then st
  else { st with dated := st.dated ++ [⟨ts, []⟩] }

/-- Effect of a successful `shutil.move(item_path, target_path)` on the
dated subfolders: the file lands in the subfolder named `ts`; if a file of
the same name was already there, it is replaced (`os.rename` overwrite on
POSIX, `copy2` + `unlink` fallback after the `FileExistsError` on Windows). -/
def placeFile (ts : String) (f : DFile) (ds : List Dated) : List Dated :=
  ds.map fun d =>
    if d.dname == ts then
      { d with dfiles := f :: d.dfiles.filter (fun g => g.name != f.name) }
    else d

/-- The retry loop of part_000 lines 231-244: while `retry_count > 0`,
add the source size to `space_cleared`, then attempt the move; a
`PermissionError` decrements the counter, sleeps one second, and raises
once the counter hits zero. Returns the state, whether the move succeeded,
and the number of attempts made. -/
def move_retry (ts : String) (e : Entry) : Nat → Nat → OrgState → OrgState × Bool × Nat
  | 0, _, st => (st, false, 0)
  | rc + 1, locked, st =>
    let st := { st with stats := { st.stats with space_cleared := st.stats.space_cleared + e.size } }
    match locked with
    | 0 =>
      let st := { st with
        entries := st.entries.eraseP (fun x => x.name == e.name),
        dated := placeFile ts ⟨e.name, e.fid, false⟩ st.dated,
        stats := { st.stats with files_moved := st.stats.files_moved + 1 } }
      (st, true, 1)
    | l + 1 =>
      let st := { st with sleeps := st.sleeps + 1 }
      if rc == 0 then (st, false, 1)
      else
        let r := move_retry ts e rc l st
        (r.fst, r.snd.fst, r.snd.snd + 1)

/-- Processing of one eligible item (part_000 lines 225-248): compute the
target path, run the retry loop with `retry_count = 3`, and on the raised
`PermissionError` after exhausted retries count one error and continue. -/
def processItem (ts : String) (st : OrgState) (e : Entry) : OrgState :=
  let target : List String := ["Archive", ts, e.name]
  let r := move_retry ts e 3 e.locked st
  let st := r.fst
  let st :=
    if r.snd.fst then st
    else { st with stats := { st.stats with errors := st.stats.errors + 1 } }
  { st with log := st.log ++ [⟨e.name, target, r.snd.snd, r.snd.fst⟩] }

/-- `FileOrganizer.organize_folder` of src/unnamed/part_000 (lines 181-255):
ensure the `Archive` root, list the folder, filter the eligible items, and
when at least one item is eligible create the dated subfolder named `ts`
(the formatted `datetime.now()`) and move every eligible item into it. -/
def organize_folder_old (ts : String) (st : OrgState) : OrgState :=
  let st := ensureArchive st
  let files_to_move := st.entries.filter eligible
  if files_to_move.isEmpty then st
  else
    let st := ensureDated ts st
    files_to_move.foldl (processItem ts) st

/-! ## The Extension Classifier (File_Organizer.py `get_category_for_extension`)
and the repair-sweep movers. -/

/-- One configured category: its identifier and its lower-cased extension
set, in declaration order. -/
structure Category where
  cname : String
  extensions : List String
deriving Repr, DecidableEq

/-- The shortcut extensions checked first by `get_category_for_extension`
(line 650) and by the inline classifier of `move_to_category` (line 352). -/
def shortcutExts : List String := [".lnk", ".url", ".desktop"]

/-- The `for category, info in self.categories.items()` scan: return the
first declared category whose extension set contains the extension, else
`Others` (File_Organizer.py lines 653-656). -/
def firstCategory : List Category → String → String
  | [], _ => "Others"
  | c :: cs, ext => if c.extensions.contains ext then c.cname else firstCategory cs ext

/-- `FileOrganizer.get_category_for_extension` (File_Organizer.py lines
648-656). -/
def get_category_for_extension (cats : List Category) (ext : String) : String :=
  if shortcutExts.contains ext then "Shortcuts"
  else firstCategory cats ext

/-- Modelled from the spec: the category configuration `self.categories` is
never assigned in src (§6 of the spec: it is loaded by the excluded
configuration collaborator). The category identifiers are the ones the
repair-sweep code itself enumerates (File_Organizer.py lines 593-625); the
extension sets follow the spec's examples. -/
def specCategories : List Category :=
  [⟨"Audio", [".mp3", ".wav"]⟩,
   ⟨"Documents", [".pdf", ".docx", ".txt"]⟩,
   ⟨"Images", [".jpg", ".png"]⟩,
   ⟨"Video", [".mp4"]⟩,
   ⟨"Shortcuts", [".lnk", ".url", ".desktop"]⟩,
   ⟨"Code", [".py", ".js"]⟩,
   ⟨"Executables", [".exe"]⟩,
   ⟨"ZIP_Files", [".zip"]⟩,
   ⟨"RAR_Files", [".rar"]⟩,
   ⟨"Other_Archives", [".7z"]⟩,
   ⟨"Others", []⟩]

/-- A category subfolder of a dated folder, with its direct files. -/
structure CatDir where
  cname : String
  cfiles : List DFile
deriving Repr, DecidableEq

/-- A dated archive folder as the one-level repair sweeps see it: its
direct (loose) files and its immediate subfolders. -/
structure DatedTree where
  files : List DFile
  cats : List CatDir
deriving Repr, DecidableEq

/-- State threaded through the repair-sweep movers: the dated folder being
repaired, the statistics (which the Python repair methods can reach through
`self.stats`), and whether an uncaught exception has unwound the sweep. -/
structure RepairState where
  tree : DatedTree
  stats : Stats
  aborted : Bool
deriving Repr, DecidableEq

/-- `FileOrganizer.move_to_category` (File_Organizer.py lines 342-369):
classify the file's extension exactly as `get_category_for_extension` does
(the logic of lines 349-359 is that function inlined), compute
`dated_folder/category/file_name`, and move only when nothing exists at the
target path. Any exception (source gone, locked file, missing category
folder) is caught by the method's own `try/except` and only logged. -/
def move_to_category (cats : List Category) (fname : String) (s : RepairState) : RepairState :=
  match s.tree.files.find? (fun f => f.name == fname) with
  | none => s
  | some f =>
    let category := get_category_for_extension cats (file_ext fname)
    match s.tree.cats.find? (fun c => c.cname == category) with
    | none => s
    | some cd =>
      if cd.cfiles.any (fun g => g.name == fname) then s
      else if f.locked then s
      else
        { s with tree :=
          { files := s.tree.files.eraseP (fun g => g.name == fname),
            cats := s.tree.cats.map fun c =>
              if c.cname == category then { c with cfiles := f :: c.cfiles } else c } }

/-- The misplaced-file step of `fix_onedrive_archives` (File_Organizer.py
lines 767-776): for a direct entry of the dated folder that is (still) a
file, classify it and `shutil.move` it into its category folder unless the
target path exists. A raised exception (locked file, or the target category
folder not created yet) propagates out of the whole method and is modelled
by the `aborted` flag. -/
def odMoveStep (cats : List Category) (s : RepairState) (fname : String) : RepairState :=
  if s.aborted then s
  else
    match s.tree.files.find? (fun f => f.name == fname) with
    | none => s
    | some f =>
      let target_category := get_category_for_extension cats (file_ext fname)
      match s.tree.cats.find? (fun c => c.cname == target_category) with
      | none => { s with aborted := true }
      | some cd =>
        if cd.cfiles.any (fun g => g.name == fname) then s
        else if f.locked then { s with aborted := true }
        else
          { s with tree :=
            { files := s.tree.files.eraseP (fun g => g.name == fname),
              cats := s.tree.cats.map fun c =>
                if c.cname == target_category then { c with cfiles := f :: c.cfiles } else c } }

/-- The per-category body of `fix_onedrive_archives` (lines 719-776):
`os.makedirs(category_path, exist_ok=True)`, write the `Desktop.ini`
decoration sidecar into the category folder, then run the misplaced-file
loop over a fresh `os.listdir(dated_path)`. -/
def odCatStep (cats : List Category) (s : RepairState) (c : Category) : RepairState :=
  if s.aborted then s
  else
    let s :=
      if s.tree.cats.any (fun cd => cd.cname == c.cname) then s
      else { s with tree := { s.tree with cats := s.tree.cats ++ [⟨c.cname, []⟩] } }
    let s :=
      { s with tree := { s.tree with cats := s.tree.cats.map fun (cd : CatDir) =>
          if cd.cname == c.cname then
            { cd with cfiles :=
                if cd.cfiles.any (fun (g : DFile) => g.name == "Desktop.ini") then cd.cfiles
                else ⟨"Desktop.ini", 0, false⟩ :: cd.cfiles }
          else cd } }
    (s.tree.files.map (fun f => f.name)).foldl (odMoveStep cats) s

/-- A direct child of a OneDrive archive path, as `fix_onedrive_archives`
lists them. -/
structure DatedChild where
  name : String
  isDir : Bool
  tree : DatedTree
deriving Repr, DecidableEq

/-- State of one OneDrive archive path for `fix_onedrive_archives`. -/
structure ODState where
  children : List DatedChild
  stats : Stats
  aborted : Bool
deriving Repr, DecidableEq

/-- `FileOrganizer.fix_onedrive_archives` over one existing archive path
(File_Organizer.py lines 708-776): for each immediate child that is a
directory whose name contains an underscore, run the per-category repair;
an exception anywhere unwinds to the method's outer `except`, leaving the
remaining children untouched. -/
def fix_onedrive_archives (cats : List Category) (s : ODState) : ODState :=
  let r := s.children.foldl
    (fun (acc : List DatedChild × Stats × Bool) ch =>
      if acc.snd.snd then (acc.fst ++ [ch], acc.snd)
      else if ch.isDir && containsSub ch.name "_" then
        let s2 := cats.foldl (odCatStep cats) ⟨ch.tree, acc.snd.fst, false⟩
        (acc.fst ++ [{ ch with tree := s2.tree }], s2.stats, s2.aborted)
      else (acc.fst ++ [ch], acc.snd))
    ([], s.stats, s.aborted)
  ⟨r.fst, r.snd.fst, r.snd.snd⟩

/-! ## `FileOrganizer.fix_all_archives` (File_Organizer.py lines 552-646):
an `os.walk` over a whole archive tree, treating every visited directory
whose basename contains an underscore as a dated folder. -/

/-- A directory tree: direct file names and named subdirectories.
File identity is irrelevant to the claims settled against this sweep, so
files are bare names here. -/
inductive WTree where
  | mk (files : List String) (dirs : List (String × WTree))

/-- Direct files of the directory. -/
def WTree.files : WTree → List String
  | .mk fs _ => fs

/-- Immediate subdirectories of the directory. -/
def WTree.dirs : WTree → List (String × WTree)
  | .mk _ ds => ds

/-- Counters observed for a run of `fix_all_archives`: directories actually
created by `os.makedirs`, files moved by `shutil.move`, and whether an
exception unwound the sweep into the method's outer `except`. -/
structure FixLog where
  creations : Nat
  moves : Nat
  aborted : Bool
deriving Repr, DecidableEq

/-- `os.makedirs(root/category, exist_ok=True)` (line 585): create the
subdirectory when missing and report whether it was created. -/
def ensureSubdir (t : WTree) (dname : String) : WTree × Bool :=
  if t.dirs.any (fun p => p.fst == dname) then (t, false)
  else (WTree.mk t.files (t.dirs ++ [(dname, WTree.mk [] [])]), true)

/-- Writing the `Desktop.ini` decoration sidecar into a subdirectory
(lines 588-625): creates or overwrites the file there. -/
def writeIni (t : WTree) (dname : String) : WTree :=
  WTree.mk t.files (t.dirs.map fun p =>
    if p.fst == dname then
      (p.fst,
        WTree.mk (if p.snd.files.contains "Desktop.ini" then p.snd.files
                  else p.snd.files ++ ["Desktop.ini"]) p.snd.dirs)
    else p)

/-- A successful `shutil.move(root/file, root/category/file)`: the file
leaves the directory's own listing and appears in the subdirectory. -/
def moveIntoSubdir (t : WTree) (dname fname : String) : WTree :=
  WTree.mk (t.files.eraseP (fun g => g == fname)) (t.dirs.map fun p =>
    if p.fst == dname then (p.fst, WTree.mk (p.snd.files ++ [fname]) p.snd.dirs)
    else p)

/-- One iteration of the per-category body of `fix_all_archives` (lines
583-641): ensure the category folder, write its `Desktop.ini`, then scan
the `files` snapshot the walk yielded for this root and move each entry
that is still a file into its classified category folder, unless the
target path exists. `shutil.move` into a category folder that does not
exist yet raises and unwinds the whole method. -/
def fixCatStep (cats : List Category) (scanned : List String)
    (acc : WTree × FixLog) (c : Category) : WTree × FixLog :=
  if acc.snd.aborted then acc
  else
    let er := ensureSubdir acc.fst c.cname
    let run := if er.snd then { acc.snd with creations := acc.snd.creations + 1 } else acc.snd
    let t := writeIni er.fst c.cname
    scanned.foldl
      (fun (acc2 : WTree × FixLog) fname =>
        if acc2.snd.aborted then acc2
        else if acc2.fst.files.contains fname then
          let target_category := get_category_for_extension cats (file_ext fname)
          match acc2.fst.dirs.find? (fun p => p.fst == target_category) with
          | none => (acc2.fst, { acc2.snd with aborted := true })
          | some p =>
            if p.snd.files.contains fname then acc2
            else (moveIntoSubdir acc2.fst target_category fname,
                  { acc2.snd with moves := acc2.snd.moves + 1 })
        else acc2)
      (t, run)

/-- Client processing of one walked directory whose basename contains an
underscore: the category loop of lines 583-641, over the walk's `files`
snapshot for this root. -/
def processDatedNode (cats : List Category) (scanned : List String)
    (t : WTree) (run : FixLog) : WTree × FixLog :=
  cats.foldl (fixCatStep cats scanned) (t, run)

/-- The `os.walk(archive_path)` of `fix_all_archives` (lines 577-641),
top-down and lazy: a directory's children are scanned when the walk reaches
it, the client body runs on that snapshot, and the walk then descends into
the scanned children with their current (possibly mutated) contents.
Directories created by the client body are absent from the snapshot and are
not visited in the same run. `fuel` bounds the recursion depth of the
model; `none` means the bound was too small for the given tree (never the
behaviour of the program). After an exception has unwound the sweep
(`aborted`), nothing further is processed. -/
def walkFix (cats : List Category) (fuel : Nat) (name : String) (t : WTree)
    (run : FixLog) : Option (WTree × FixLog) :=
  match fuel with
  | 0 => none
  | fuel + 1 =>
    if run.aborted then some (t, run)
    else
      let scannedDirs := t.dirs.map Prod.fst
      let pr :=
        if containsSub name "_" then processDatedNode cats t.files t run else (t, run)
      scannedDirs.foldl
        (fun (acc : Option (WTree × FixLog)) d =>
          match acc with
          | none => none
          | some tr =>
            match tr.fst.dirs.find? (fun p => p.fst == d) with
            | none => some tr
            | some p =>
              match walkFix cats fuel d p.snd tr.snd with
              | none => none
              | some sr =>
                some (WTree.mk tr.fst.files
                        (tr.fst.dirs.map fun q => if q.fst == d then (q.fst, sr.fst) else q),
                      sr.snd))
        (some pr)

/-- One archive location of `fix_all_archives`: walk the tree rooted at the
`Archive` directory with fresh counters. -/
def fix_all_archive (cats : List Category) (fuel : Nat) (t : WTree) :
    Option (WTree × FixLog) :=
  walkFix cats fuel "Archive" t ⟨0, 0, false⟩

/-! ## Concrete inputs used by witnesses and counterexamples -/

/-- C1: a 100-byte file whose first move attempt raises `PermissionError`
and whose second attempt succeeds. -/
def c1state : OrgState :=
  ⟨[⟨"report.pdf", false, 100, 1, 1, false⟩], false, [], ⟨0, 0, 0⟩, 0, []⟩

/-- C1: a 100-byte file locked on all three attempts. -/
def c1stateFail : OrgState :=
  ⟨[⟨"locked.doc", false, 100, 2, 3, false⟩], false, [], ⟨0, 0, 0⟩, 0, []⟩

/-- C2: an archive root holding one freshly created, empty dated subtree. -/
def c2tree : WTree := WTree.mk [] [("Mar-14-2024_09-30AM", WTree.mk [] [])]

/-- C3: a source folder holding `report.pdf` (content 1) while the dated
subfolder for this sweep's timestamp already holds a different
`report.pdf` (content 7). -/
def c3state : OrgState :=
  ⟨[⟨"report.pdf", false, 5, 1, 0, false⟩], true,
    [⟨"Jan-01-2026_10-00AM", [⟨"report.pdf", 7, false⟩]⟩], ⟨0, 0, 0⟩, 0, []⟩

/-- C3 witness: a dated folder whose `Documents` category folder already
holds a `report.pdf` while another `report.pdf` lies loose. -/
def c3repair : RepairState :=
  ⟨⟨[⟨"report.pdf", 1, false⟩], [⟨"Documents", [⟨"report.pdf", 9, false⟩]⟩]⟩,
    ⟨0, 0, 0⟩, false⟩

/-- C4: the spec's Scenario 1 source folder: `report.pdf`, `photo.jpg`,
and an empty `Archive`. -/
def c4state : OrgState :=
  ⟨[⟨"report.pdf", false, 100, 1, 0, false⟩, ⟨"photo.jpg", false, 50, 2, 0, false⟩,
    ⟨"Archive", true, 0, 0, 0, false⟩], true, [], ⟨0, 0, 0⟩, 0, []⟩

/-- C7: a user folder whose name contains `Archive`. -/
def c7entry : Entry := ⟨"My Archive Stuff", true, 0, 3, 0, false⟩

/-- C7: a source folder holding that folder and an ordinary file. -/
def c7state : OrgState :=
  ⟨[c7entry, ⟨"notes.txt", false, 10, 4, 0, false⟩], false, [], ⟨0, 0, 0⟩, 0, []⟩

/-- C8: a file locked on every attempt. -/
def c8entry : Entry := ⟨"locked.txt", false, 10, 1, 4, false⟩

/-- C8: a sweep state holding the locked file and an ordinary one. -/
def c8state : OrgState :=
  ⟨[c8entry, ⟨"next.txt", false, 5, 2, 0, false⟩], true, [⟨"T", []⟩], ⟨0, 0, 0⟩, 0, []⟩

/-- C9: an ordinary file on which the system-file check's stat call
raises. -/
def c9entry : Entry := ⟨"report.pdf", false, 10, 1, 0, true⟩

/-- C9: a source folder holding only that file. -/
def c9state : OrgState := ⟨[c9entry], false, [], ⟨0, 0, 0⟩, 0, []⟩

/-- C9 witness entry: another stat-error entry. -/
def c9wentry : Entry := ⟨"data.bin", false, 3, 2, 0, true⟩

/-! ## Shared helper lemmas -/

/-- Folding preserves any invariant that each step preserves. -/
theorem foldlPreserves {α β : Type} (P : α → Prop) (f : α → β → α) :
    ∀ (l : List β) (a : α), (∀ a b, b ∈ l → P a → P (f a b)) → P a → P (l.foldl f a) := by
  intro l
  induction l with
  | nil => intro a _ ha; exact ha
  | cons b l ih =>
    intro a h ha
    exact ih (f a b) (fun a' b' hb' => h a' b' (List.mem_cons_of_mem _ hb'))
      (h a b (List.mem_cons_self _ _) ha)

/-- `ensureArchive` changes at most the `hasArchive` field. -/
theorem ensureArchive_fields (st : OrgState) :
    (ensureArchive st).entries = st.entries ∧ (ensureArchive st).dated = st.dated ∧
    (ensureArchive st).stats = st.stats ∧ (ensureArchive st).log = st.log ∧
    (ensureArchive st).sleeps = st.sleeps := by
  unfold ensureArchive
  split <;> exact ⟨rfl, rfl, rfl, rfl, rfl⟩

/-- `ensureDated` changes at most the `dated` field. -/
theorem ensureDated_fields (ts : String) (st : OrgState) :
    (ensureDated ts st).entries = st.entries ∧ (ensureDated ts st).stats = st.stats ∧
    (ensureDated ts st).log = st.log ∧ (ensureDated ts st).sleeps = st.sleeps := by
  unfold ensureDated
  split <;> exact ⟨rfl, rfl, rfl, rfl⟩

/-- The retry loop never touches the move log. -/
theorem move_retry_log (ts : String) (e : Entry) :
    ∀ (rc locked : Nat) (st : OrgState), (move_retry ts e rc locked st).fst.log = st.log := by
  intro rc
  induction rc with
  | zero => intro locked st; rfl
  | succ rc ih =>
    intro locked st
    match locked with
    | 0 => rfl
    | l + 1 =>
      show (if rc == 0 then _ else _ : OrgState × Bool × Nat).fst.log = _
      split
      · rfl
      · exact ih l _

/-- The retry loop makes at most `rc` attempts. -/
theorem move_retry_attempts_le (ts : String) (e : Entry) :
    ∀ (rc locked : Nat) (st : OrgState), (move_retry ts e rc locked st).snd.snd ≤ rc := by
  intro rc
  induction rc with
  | zero => intro locked st; exact Nat.le_refl 0
  | succ rc ih =>
    intro locked st
    match locked with
    | 0 => exact Nat.le_refl 1 |>.trans (Nat.succ_le_succ (Nat.zero_le rc))
    | l + 1 =>
      show (if rc == 0 then _ else _ : OrgState × Bool × Nat).snd.snd ≤ rc + 1
      split
      · exact Nat.succ_le_succ (Nat.zero_le rc)
      · exact Nat.succ_le_succ (ih l _)

/-- A member not matched by the predicate survives the retry loop's source
directory. -/
theorem move_retry_entries_keep (ts : String) (e : Entry) (x : Entry)
    (hne : (x.name == e.name) = false) :
    ∀ (rc locked : Nat) (st : OrgState),
      x ∈ st.entries → x ∈ (move_retry ts e rc locked st).fst.entries := by
  intro rc
  induction rc with
  | zero => intro locked st hx; exact hx
  | succ rc ih =>
    intro locked st hx
    match locked with
    | 0 =>
      show x ∈ st.entries.eraseP (fun y => y.name == e.name)
      exact (List.mem_eraseP_of_neg (by simp [hne])).mpr hx
    | l + 1 =>
      show x ∈ (if rc == 0 then _ else _ : OrgState × Bool × Nat).fst.entries
      split
      · exact hx
      · exact ih l _ hx

/-- `processItem` appends exactly one record, for the processed entry, with
the destination `Archive/<ts>/<name>` and at most three attempts. -/
theorem processItem_log (ts : String) (st : OrgState) (e : Entry) :
    ∃ n ok, (processItem ts st e).log = st.log ++ [⟨e.name, ["Archive", ts, e.name], n, ok⟩]
      ∧ n ≤ 3 := by
  refine ⟨(move_retry ts e 3 e.locked st).snd.snd, (move_retry ts e 3 e.locked st).snd.fst,
    ?_, move_retry_attempts_le ts e 3 e.locked st⟩
  simp only [processItem]
  split <;> simp [move_retry_log]

/-- The names logged by a sweep body are the previous log's names followed
by the processed entries' names, in order: no entry aborts the loop over
the rest. -/
theorem foldl_processItem_names (ts : String) :
    ∀ (l : List Entry) (st : OrgState),
      (l.foldl (processItem ts) st).log.map MoveRec.rname
        = st.log.map MoveRec.rname ++ l.map Entry.name := by
  intro l
  induction l with
  | nil => intro st; simp
  | cons e l ih =>
    intro st
    obtain ⟨n, ok, hlog, -⟩ := processItem_log ts st e
    rw [List.foldl_cons, ih, hlog]
    simp

/-- `processItem` changes the source listing only through the retry loop. -/
theorem processItem_entries (ts : String) (st : OrgState) (e : Entry) :
    (processItem ts st e).entries = (move_retry ts e 3 e.locked st).fst.entries := by
  simp only [processItem]
  split <;> rfl

/-- A fully locked file makes the retry loop add its size three times,
sleep three times, and give up without touching the listing, the
destination tree, `files_moved`, or `errors`. -/
theorem move_retry_exhaust (ts : String) (e : Entry) (k : Nat) (st : OrgState) :
    move_retry ts e 3 (k + 3) st
      = ({ st with
            stats := { st.stats with
              space_cleared := st.stats.space_cleared + e.size + e.size + e.size },
            sleeps := st.sleeps + 1 + 1 + 1 }, false, 3) := rfl

/-- The names a sweep logs: the previous log's names followed by the names
of all eligible entries, whatever the per-entry outcomes were. -/
theorem organize_folder_old_names (ts : String) (st : OrgState) :
    (organize_folder_old ts st).log.map MoveRec.rname
      = st.log.map MoveRec.rname ++ (st.entries.filter eligible).map Entry.name := by
  obtain ⟨he, hd, hs, hl, -⟩ := ensureArchive_fields st
  obtain ⟨he2, hs2, hl2, -⟩ := ensureDated_fields ts (ensureArchive st)
  simp only [organize_folder_old, he]
  by_cases hemp : (st.entries.filter eligible).isEmpty = true
  · rw [if_pos hemp]
    rw [List.isEmpty_iff] at hemp
    simp [hemp, hl]
  · rw [if_neg hemp]
    rw [foldl_processItem_names, hl2, hl]

/-! ## Claim theorems -/

/-- C5: classification is total and deterministic; a shortcut extension
yields `Shortcuts` unconditionally, overriding any other category whose
extension set also contains it; otherwise the result is the first declared
category containing the extension, and `Others` when none does. -/
theorem claim_c5 (cats : List Category) (ext : String) :
    (shortcutExts.contains ext = true →
      get_category_for_extension cats ext = "Shortcuts") ∧
    (shortcutExts.contains ext = false →
      (∀ c, cats.find? (fun c => c.extensions.contains ext) = some c →
          get_category_for_extension cats ext = c.cname) ∧
      (cats.find? (fun c => c.extensions.contains ext) = none →
          get_category_for_extension cats ext = "Others")) := by
  constructor
  · intro h
    unfold get_category_for_extension
    rw [if_pos h]
  · intro h
    have hni : ¬ (shortcutExts.contains ext = true) := by simp only [h]; decide
    have hfc : ∀ (cs : List Category),
        (∀ c, cs.find? (fun c => c.extensions.contains ext) = some c →
            firstCategory cs ext = c.cname) ∧
        (cs.find? (fun c => c.extensions.contains ext) = none →
            firstCategory cs ext = "Others") := by
      intro cs
      induction cs with
      | nil => exact ⟨fun c hc => by simp [List.find?] at hc, fun _ => rfl⟩
      | cons c₀ cs ih =>
        constructor
        · intro c hc
          by_cases hm : c₀.extensions.contains ext = true
          · simp only [List.find?_cons, hm] at hc
            cases hc
            simp only [firstCategory]
            rw [if_pos hm]
          · simp only [Bool.not_eq_true] at hm
            simp only [List.find?_cons, hm] at hc
            simp only [firstCategory]
            rw [if_neg (by simp only [hm]; decide)]
            exact ih.1 c hc
        · intro hc
          by_cases hm : c₀.extensions.contains ext = true
          · simp only [List.find?_cons, hm] at hc
            simp at hc
          · simp only [Bool.not_eq_true] at hm
            simp only [List.find?_cons, hm] at hc
            simp only [firstCategory]
            rw [if_neg (by simp only [hm]; decide)]
            exact ih.2 hc
    constructor
    · intro c hc
      unfold get_category_for_extension
      rw [if_neg hni]
      exact (hfc cats).1 c hc
    · intro hc
      unfold get_category_for_extension
      rw [if_neg hni]
      exact (hfc cats).2 hc

/-- Witness for C5, at a configuration where `.desktop` also belongs to a
declared category: the shortcut set still wins. -/
theorem claim_c5_witness :
    ([".lnk", ".url", ".desktop"].contains ".desktop" = true) ∧
    get_category_for_extension [⟨"Code", [".desktop", ".py"]⟩] ".desktop" = "Shortcuts" :=
  ⟨by decide, (claim_c5 [⟨"Code", [".desktop", ".py"]⟩] ".desktop").1 (by decide)⟩

/-- C6: a forward sweep that finds zero eligible entries creates no dated
subfolder under the archive root, moves nothing, and leaves the statistics
(hence `files_moved`) unchanged. -/
theorem claim_c6 (ts : String) (st : OrgState)
    (h : st.entries.filter eligible = []) :
    (organize_folder_old ts st).dated = st.dated ∧
    (organize_folder_old ts st).stats = st.stats ∧
    (organize_folder_old ts st).log = st.log := by
  obtain ⟨he, hd, hs, hl, -⟩ := ensureArchive_fields st
  simp only [organize_folder_old, he, h]
  simp [hd, hs, hl]

/-- Witness for C6 at the spec's Scenario 2: a folder holding only
`desktop.ini` and `thumbs.db`. -/
theorem claim_c6_witness :
    (([⟨"desktop.ini", false, 1, 1, 0, false⟩,
       ⟨"thumbs.db", false, 1, 2, 0, false⟩] : List Entry).filter eligible = []) ∧
    (organize_folder_old "Jan-01-2026_10-00AM"
        ⟨[⟨"desktop.ini", false, 1, 1, 0, false⟩, ⟨"thumbs.db", false, 1, 2, 0, false⟩],
          false, [], ⟨0, 0, 0⟩, 0, []⟩).dated = [] ∧
    (organize_folder_old "Jan-01-2026_10-00AM"
        ⟨[⟨"desktop.ini", false, 1, 1, 0, false⟩, ⟨"thumbs.db", false, 1, 2, 0, false⟩],
          false, [], ⟨0, 0, 0⟩, 0, []⟩).stats = ⟨0, 0, 0⟩ ∧
    (organize_folder_old "Jan-01-2026_10-00AM"
        ⟨[⟨"desktop.ini", false, 1, 1, 0, false⟩, ⟨"thumbs.db", false, 1, 2, 0, false⟩],
          false, [], ⟨0, 0, 0⟩, 0, []⟩).log = [] := by
  refine ⟨by decide, ?_⟩
  have h := claim_c6 "Jan-01-2026_10-00AM"
    ⟨[⟨"desktop.ini", false, 1, 1, 0, false⟩, ⟨"thumbs.db", false, 1, 2, 0, false⟩],
      false, [], ⟨0, 0, 0⟩, 0, []⟩ (by decide)
  exact h

/-- C7: an entry whose lower-cased name contains the substring `archive`
(in particular the `Archive` root itself) is never eligible, survives every
forward sweep in the source listing, and no move record of the sweep is
about it. -/
theorem claim_c7 (ts : String) (st : OrgState) (x : Entry)
    (hx : x ∈ st.entries) (hc : containsSub (lowerStr x.name) "archive" = true) :
    eligible x = false ∧
    x ∈ (organize_folder_old ts st).entries ∧
    (∀ r, r ∈ (organize_folder_old ts st).log → r ∉ st.log → r.rname ≠ x.name) := by
  have helig : eligible x = false := by
    unfold eligible
    rw [hc]
    simp
  refine ⟨helig, ?_⟩
  obtain ⟨he, hd, hs, hl, -⟩ := ensureArchive_fields st
  obtain ⟨he2, hs2, hl2, -⟩ := ensureDated_fields ts (ensureArchive st)
  simp only [organize_folder_old, he]
  by_cases hemp : (st.entries.filter eligible).isEmpty = true
  · rw [if_pos hemp]
    refine ⟨by rw [he]; exact hx, ?_⟩
    intro r hr hnr
    rw [hl] at hr
    exact absurd hr hnr
  · rw [if_neg hemp]
    have key : ∀ e, e ∈ st.entries.filter eligible → (x.name == e.name) = false := by
      intro e hef
      have helig_e : eligible e = true := (List.mem_filter.mp hef).2
      have h3 : containsSub (lowerStr e.name) "archive" = false := by
        unfold eligible at helig_e
        rcases Bool.eq_false_or_eq_true (containsSub (lowerStr e.name) "archive") with h' | h'
        · rw [h'] at helig_e
          simp at helig_e
        · exact h'
      cases hbeq : (x.name == e.name) with
      | false => rfl
      | true =>
        have hxe : x.name = e.name := eq_of_beq hbeq
        rw [← hxe, hc] at h3
        exact Bool.noConfusion h3
    have hP := foldlPreserves
      (fun a => x ∈ a.entries ∧ ∀ r, r ∈ a.log → r ∈ st.log ∨ r.rname ≠ x.name)
      (processItem ts) (st.entries.filter eligible)
      (ensureDated ts (ensureArchive st))
      (by
        intro a e he' ha
        refine ⟨?_, ?_⟩
        · rw [processItem_entries]
          exact move_retry_entries_keep ts e x (key e he') 3 e.locked a ha.1
        · obtain ⟨n, ok, hlog, -⟩ := processItem_log ts a e
          intro r hr
          rw [hlog] at hr
          rcases List.mem_append.mp hr with h' | h'
          · exact ha.2 r h'
          · right
            rw [List.mem_singleton.mp h']
            intro hcon
            have hcon' : e.name = x.name := hcon
            have hkey := key e he'
            rw [← hcon'] at hkey
            simp at hkey)
      (by
        refine ⟨by rw [he2, he]; exact hx, ?_⟩
        intro r hr
        rw [hl2, hl] at hr
        exact Or.inl hr)
    refine ⟨hP.1, ?_⟩
    intro r hr hnr
    rcases hP.2 r hr with h' | h'
    · exact absurd h' hnr
    · exact h'

/-- Witness for C7: a folder `My Archive Stuff` alongside an ordinary
eligible file is left untouched and unlogged by the sweep. -/
theorem claim_c7_witness :
    (c7entry ∈ c7state.entries) ∧
    (containsSub (lowerStr c7entry.name) "archive" = true) ∧
    (eligible c7entry = false ∧
      c7entry ∈ (organize_folder_old "Jan-01-2026_10-00AM" c7state).entries ∧
      (∀ r, r ∈ (organize_folder_old "Jan-01-2026_10-00AM" c7state).log →
        r ∉ c7state.log → r.rname ≠ c7entry.name)) :=
  ⟨by decide, by decide,
    claim_c7 "Jan-01-2026_10-00AM" c7state c7entry (by decide) (by decide)⟩

/-- C8: a file locked on every attempt is retried up to exactly three
attempts, with a one-second sleep after each failed attempt (three sleeps
in total), then counted as one error without being moved or removed from
the source; every logged record reports at most three attempts; and the
sweep still processes every eligible entry, whatever the earlier outcomes
(the log names are exactly the eligible entries' names, in order). -/
theorem claim_c8 (ts : String) (st : OrgState) (e : Entry) (h : 3 ≤ e.locked) :
    (processItem ts st e).stats.errors = st.stats.errors + 1 ∧
    (processItem ts st e).stats.files_moved = st.stats.files_moved ∧
    (processItem ts st e).sleeps = st.sleeps + 3 ∧
    (processItem ts st e).entries = st.entries ∧
    (processItem ts st e).log
      = st.log ++ [⟨e.name, ["Archive", ts, e.name], 3, false⟩] ∧
    (∀ (st' : OrgState) (e' : Entry) (r : MoveRec),
      r ∈ (processItem ts st' e').log → r ∉ st'.log → r.attempts ≤ 3) ∧
    (organize_folder_old ts st).log.map MoveRec.rname
      = st.log.map MoveRec.rname ++ (st.entries.filter eligible).map Entry.name := by
  obtain ⟨k, hk⟩ : ∃ k, e.locked = k + 3 := ⟨e.locked - 3, by omega⟩
  have hmr := move_retry_exhaust ts e k st
  rw [← hk] at hmr
  refine ⟨?_, ?_, ?_, ?_, ?_, ?_, organize_folder_old_names ts st⟩
  · simp [processItem, hmr]
  · simp [processItem, hmr]
  · simp [processItem, hmr]
  · simp [processItem, hmr]
  · simp [processItem, hmr]
  · intro st' e' r hr hnr
    obtain ⟨n, ok, hlog, hn⟩ := processItem_log ts st' e'
    rw [hlog] at hr
    rcases List.mem_append.mp hr with h' | h'
    · exact absurd h' hnr
    · rw [List.mem_singleton.mp h']
      exact hn

/-- Witness for C8: a file locked on all attempts followed by an ordinary
file; the sweep records the failure and still processes the second file. -/
theorem claim_c8_witness :
    3 ≤ c8entry.locked ∧
    ((processItem "T" c8state c8entry).stats.errors = c8state.stats.errors + 1 ∧
     (processItem "T" c8state c8entry).stats.files_moved = c8state.stats.files_moved ∧
     (processItem "T" c8state c8entry).sleeps = c8state.sleeps + 3 ∧
     (processItem "T" c8state c8entry).entries = c8state.entries ∧
     (processItem "T" c8state c8entry).log
       = c8state.log ++ [⟨c8entry.name, ["Archive", "T", c8entry.name], 3, false⟩] ∧
     (∀ (st' : OrgState) (e' : Entry) (r : MoveRec),
       r ∈ (processItem "T" st' e').log → r ∉ st'.log → r.attempts ≤ 3) ∧
     (organize_folder_old "T" c8state).log.map MoveRec.rname
       = c8state.log.map MoveRec.rname
         ++ (c8state.entries.filter eligible).map Entry.name) :=
  ⟨by decide, claim_c8 "T" c8state c8entry (by decide)⟩

/-- C1: evaluation of the forward sweep at the failing inputs. The claim
says `space_cleared` grows by the pre-move size exactly once, and only on
success; the code adds the size once per attempt, before the move, so a
move that fails once and then succeeds adds 200 for a 100-byte file, and a
move that fails all three attempts adds 300 while counting the error. -/
theorem claim_c1 :
    (organize_folder_old "Jan-01-2026_10-00AM" c1state).stats = ⟨1, 200, 0⟩ ∧
    (organize_folder_old "Jan-01-2026_10-00AM" c1stateFail).stats = ⟨0, 300, 1⟩ := by
  exact ⟨rfl, rfl⟩

/-- C2: evaluation of `fix_all_archives` on an archive root holding a
single empty dated subtree. The first run creates the eleven category
folders; the claim says a second run over the otherwise-unchanged tree
performs zero additional folder creations, but the second run descends
into `ZIP_Files` (its name contains an underscore, so the walk treats it
as a dated folder), creates a category folder inside it, and then aborts
on the move of its `Desktop.ini` sidecar towards a not-yet-created
`Others` subfolder. -/
theorem claim_c2 :
    (fix_all_archive specCategories 10 c2tree).map (fun p => p.snd)
      = some ⟨11, 0, false⟩ ∧
    ((fix_all_archive specCategories 10 c2tree).bind
        (fun p => fix_all_archive specCategories 10 p.fst)).map (fun p => p.snd)
      = some ⟨1, 0, true⟩ := by
  exact ⟨rfl, rfl⟩

/-- Counterexample to C3 as stated: the forward sweep's mover has no
destination-exists check. With a `report.pdf` (content 7) already at the
computed destination, the sweep still moves the source `report.pdf`
(content 1), overwriting the destination file, emptying the source, and
incrementing `files_moved` — the claim says the move is skipped, the
source is untouched, and no statistic changes. -/
theorem claim_c3_counterexample :
    (organize_folder_old "Jan-01-2026_10-00AM" c3state).dated
      = [⟨"Jan-01-2026_10-00AM", [⟨"report.pdf", 1, false⟩]⟩] ∧
    (organize_folder_old "Jan-01-2026_10-00AM" c3state).entries = [] ∧
    (organize_folder_old "Jan-01-2026_10-00AM" c3state).stats.files_moved = 1 := by
  exact ⟨rfl, rfl, rfl⟩

/-- C3 (amended): for the repair-sweep mover `move_to_category`, a file
already present at the computed destination path makes the call a no-op:
the source file stays, nothing is overwritten, no exception escapes, and
the whole state — statistics included — is unchanged. -/
theorem claim_c3 (cats : List Category) (fname : String) (s : RepairState)
    (cd : CatDir)
    (hcd : s.tree.cats.find?
        (fun c => c.cname == get_category_for_extension cats (file_ext fname))
      = some cd)
    (hex : cd.cfiles.any (fun g => g.name == fname) = true) :
    move_to_category cats fname s = s := by
  cases hf : s.tree.files.find? (fun f => f.name == fname) with
  | none => simp only [move_to_category, hf]
  | some f =>
    simp only [move_to_category, hf, hcd]
    rw [if_pos hex]

/-- Witness for C3 (amended): a loose `report.pdf` whose `Documents`
folder already holds a file of that name is skipped. -/
theorem claim_c3_witness :
    (c3repair.tree.cats.find?
        (fun c => c.cname
          == get_category_for_extension specCategories (file_ext "report.pdf"))
      = some ⟨"Documents", [⟨"report.pdf", 9, false⟩]⟩) ∧
    ((⟨"Documents", [⟨"report.pdf", 9, false⟩]⟩ : CatDir).cfiles.any
        (fun g => g.name == "report.pdf") = true) ∧
    move_to_category specCategories "report.pdf" c3repair = c3repair :=
  ⟨by decide, by decide,
    claim_c3 specCategories "report.pdf" c3repair
      ⟨"Documents", [⟨"report.pdf", 9, false⟩]⟩ (by decide) (by decide)⟩

/-- Counterexample to C4 as stated: on the spec's Scenario 1 folder the
forward sweep computes the destinations `Archive/<T>/report.pdf` and
`Archive/<T>/photo.jpg` — no `Documents` or `Images` component — even
though `files_moved == 2` holds. -/
theorem claim_c4_counterexample :
    (organize_folder_old "Jan-01-2026_10-00AM" c4state).log.map MoveRec.dest
      = [["Archive", "Jan-01-2026_10-00AM", "report.pdf"],
         ["Archive", "Jan-01-2026_10-00AM", "photo.jpg"]] ∧
    (["Archive", "Jan-01-2026_10-00AM", "report.pdf"]
      ≠ ["Archive", "Jan-01-2026_10-00AM", "Documents", "report.pdf"]) ∧
    (organize_folder_old "Jan-01-2026_10-00AM" c4state).dated
      = [⟨"Jan-01-2026_10-00AM",
          [⟨"photo.jpg", 2, false⟩, ⟨"report.pdf", 1, false⟩]⟩] ∧
    (organize_folder_old "Jan-01-2026_10-00AM" c4state).stats.files_moved = 2 := by
  exact ⟨rfl, by decide, rfl, rfl⟩

/-- C4 (amended): every move record of a forward sweep has destination
`<source folder>/Archive/<timestamp>/<original file name>`, with no
category component; classification into CategoryFolders is performed only
by the repair sweeps. -/
theorem claim_c4 (ts : String) (st : OrgState) :
    ∀ r ∈ (organize_folder_old ts st).log,
      r ∈ st.log ∨ r.dest = ["Archive", ts, r.rname] := by
  obtain ⟨he, hd, hs, hl, -⟩ := ensureArchive_fields st
  obtain ⟨he2, hs2, hl2, -⟩ := ensureDated_fields ts (ensureArchive st)
  simp only [organize_folder_old, he]
  by_cases hemp : (st.entries.filter eligible).isEmpty = true
  · rw [if_pos hemp]
    intro r hr
    rw [hl] at hr
    exact Or.inl hr
  · rw [if_neg hemp]
    refine foldlPreserves
      (fun a => ∀ r ∈ a.log, r ∈ st.log ∨ r.dest = ["Archive", ts, r.rname])
      (processItem ts) (st.entries.filter eligible)
      (ensureDated ts (ensureArchive st)) ?_ ?_
    · intro a e _ ha r hr
      obtain ⟨n, ok, hlog, -⟩ := processItem_log ts a e
      rw [hlog] at hr
      rcases List.mem_append.mp hr with h' | h'
      · exact ha r h'
      · rw [List.mem_singleton.mp h']
        exact Or.inr rfl
    · intro r hr
      rw [hl2, hl] at hr
      exact Or.inl hr

/-- Witness for C4 (amended): the record logged for `report.pdf` in
Scenario 1 carries the category-free destination. -/
theorem claim_c4_witness :
    ((⟨"report.pdf", ["Archive", "Jan-01-2026_10-00AM", "report.pdf"], 1, true⟩ : MoveRec)
        ∈ (organize_folder_old "Jan-01-2026_10-00AM" c4state).log) ∧
    ((⟨"report.pdf", ["Archive", "Jan-01-2026_10-00AM", "report.pdf"], 1, true⟩ : MoveRec)
        ∈ c4state.log ∨
      (⟨"report.pdf", ["Archive", "Jan-01-2026_10-00AM", "report.pdf"], 1, true⟩ : MoveRec).dest
        = ["Archive", "Jan-01-2026_10-00AM",
            (⟨"report.pdf", ["Archive", "Jan-01-2026_10-00AM", "report.pdf"], 1, true⟩ : MoveRec).rname]) :=
  ⟨by decide,
    claim_c4 "Jan-01-2026_10-00AM" c4state
      ⟨"report.pdf", ["Archive", "Jan-01-2026_10-00AM", "report.pdf"], 1, true⟩
      (by decide)⟩

/-- Counterexample to C9 as stated: a stat error inside the system-file
check makes it return `False`, i.e. "not a system file", so the entry
stays eligible and is in fact swept — the claim says such an entry is
treated as ineligible. -/
theorem claim_c9_counterexample :
    is_system_file c9entry = false ∧
    eligible c9entry = true ∧
    (organize_folder_old "Jan-01-2026_10-00AM" c9state).stats.files_moved = 1 := by
  exact ⟨rfl, rfl, rfl⟩

/-- C9 (amended): the system-file check never throws (it is a total
function) and swallows a stat error by returning `False`, so an entry
whose check hits a permission or stat error — and whose name is not on the
denylist — is treated as NOT a system file and, unless excluded by the
archive-name rules, remains eligible and is swept. -/
theorem claim_c9 (e : Entry) (h1 : e.statError = true)
    (h2 : system_files.contains (lowerStr e.name) = false) :
    is_system_file e = false ∧
    ((e.name != "Archive") = true →
      containsSub (lowerStr e.name) "archive" = false →
      eligible e = true) := by
  have hsys : is_system_file e = false := by
    unfold is_system_file
    rw [if_neg (by simp only [h2]; decide)]
    rw [if_pos h1]
  refine ⟨hsys, ?_⟩
  intro hn harc
  unfold eligible
  rw [hsys, harc, hn]
  decide

/-- Witness for C9 (amended): a `data.bin` entry with a stat error is not
a system file and stays eligible. -/
theorem claim_c9_witness :
    c9wentry.statError = true ∧
    system_files.contains (lowerStr c9wentry.name) = false ∧
    (is_system_file c9wentry = false ∧
      ((c9wentry.name != "Archive") = true →
        containsSub (lowerStr c9wentry.name) "archive" = false →
        eligible c9wentry = true)) :=
  ⟨by decide, by decide, claim_c9 c9wentry (by decide) (by decide)⟩

/-- `odMoveStep` never writes the statistics. -/
theorem odMoveStep_stats (cats : List Category) (s : RepairState) (fname : String) :
    (odMoveStep cats s fname).stats = s.stats := by
  unfold odMoveStep
  repeat first
  | rfl
  | split
  | dsimp only

/-- `odCatStep` never writes the statistics. -/
theorem odCatStep_stats (cats : List Category) (s : RepairState) (c : Category) :
    (odCatStep cats s c).stats = s.stats := by
  unfold odCatStep
  split
  · rfl
  · refine foldlPreserves (fun x => x.stats = s.stats) (odMoveStep cats) _ _ ?_ ?_
    · intro a b _ ha
      rw [odMoveStep_stats]
      exact ha
    · split <;> rfl

/-- C10: repair-sweep relocations leave `RunStatistics` entirely
unchanged: `move_to_category` and `fix_onedrive_archives` preserve the
statistics on every input, including states where a move is skipped,
where a move fails (locked file or missing category folder, which also
aborts `fix_onedrive_archives`), and where files are actually re-filed;
in particular neither `files_moved`, `space_cleared`, nor `errors` ever
changes. -/
theorem claim_c10 :
    (∀ (cats : List Category) (fname : String) (s : RepairState),
        (move_to_category cats fname s).stats = s.stats) ∧
    (∀ (cats : List Category) (s : ODState),
        (fix_onedrive_archives cats s).stats = s.stats) := by
  constructor
  · intro cats fname s
    unfold move_to_category
    repeat first
    | rfl
    | split
    | dsimp only
  · intro cats s
    unfold fix_onedrive_archives
    show (s.children.foldl _ ([], s.stats, s.aborted)).snd.fst = s.stats
    refine foldlPreserves
      (fun (acc : List DatedChild × Stats × Bool) => acc.snd.fst = s.stats)
      _ s.children ([], s.stats, s.aborted) ?_ rfl
    intro acc ch _ hacc
    dsimp only
    split
    · exact hacc
    · split
      · have hfold : (cats.foldl (odCatStep cats)
            ⟨ch.tree, acc.snd.fst, false⟩).stats = acc.snd.fst := by
          refine foldlPreserves (fun x => x.stats = acc.snd.fst)
            (odCatStep cats) cats ⟨ch.tree, acc.snd.fst, false⟩ ?_ rfl
          intro a b _ ha
          rw [odCatStep_stats]
          exact ha
        dsimp only
        rw [hfold]
        exact hacc
      · exact hacc

end WorkspaceCleanup
